import Mathlib

/-!
Verification of the Sunlight single-page application's state controller.

The embedding follows the source file (the React component) directly:
each React `useState` field becomes a field of `AppState`, and each
handler becomes a pure transition function.  The asynchronous remote
effect invoker (`applyLightingEffect`) is opaque to the controller, so
its outcome is passed in as a `RemoteResult` argument, and each
transition additionally returns the list of remote calls it issued.
-/

/-- `ImageFile` from `types.ts`. -/
structure ImageFile where
  base64 : String
  mimeType : String
  name : String
deriving DecidableEq, Repr

/-- `LightingEffect` from `types.ts`: six enumerated string literals. -/
inductive LightingEffect where
  | sunlight
  | shadows
  | sunlightAndShadows
  | removeSunlight
  | removeShadows
  | removeSunlightAndShadows
deriving DecidableEq, Repr

/-- The string literal each `LightingEffect` constructor stands for. -/
def LightingEffect.str : LightingEffect → String
  | .sunlight => "sunlight"
  | .shadows => "shadows"
  | .sunlightAndShadows => "sunlight-and-shadows"
  | .removeSunlight => "remove-sunlight"
  | .removeShadows => "remove-shadows"
  | .removeSunlightAndShadows => "remove-sunlight-and-shadows"

/-- `SunlightIntensity` from `types.ts`: the literal type `1 | 2 | 3`. -/
inductive SunlightIntensity where
  | one
  | two
  | three
deriving DecidableEq, Repr

/-- `SunlightDirection` from `types.ts`. -/
inductive SunlightDirection where
  | top
  | left
  | center
  | right
  | bottom
deriving DecidableEq, Repr

/-- The non-null values of `type ActiveProcess = LightingEffect | 'variation' | null`;
`null` is `Option.none` at the use sites. -/
inductive ProcTag where
  | effect (e : LightingEffect)
  | variation
deriving DecidableEq, Repr

/-- The anonymous record type of `lastAppliedConfig`. -/
structure EffectConfig where
  effect : LightingEffect
  intensity : SunlightIntensity
  direction : SunlightDirection
deriving DecidableEq, Repr

/-- All `useState` fields of the `App` component. -/
structure AppState where
  originalImage : Option ImageFile
  generatedImage : Option String
  isLoading : Bool
  error : Option String
  activeProcess : Option ProcTag
  sunlightIntensity : SunlightIntensity
  sunlightDirection : SunlightDirection
  lastAppliedConfig : Option EffectConfig
  isAddMenuOpen : Bool
  isRemoveMenuOpen : Bool
deriving DecidableEq, Repr

/-- The `useState` initial values of the `App` component. -/
def initialState : AppState where
  originalImage := none
  generatedImage := none
  isLoading := false
  error := none
  activeProcess := none
  sunlightIntensity := .two
  sunlightDirection := .top
  lastAppliedConfig := none
  isAddMenuOpen := false
  isRemoveMenuOpen := false

/-- One argument tuple passed to `applyLightingEffect`. -/
structure RemoteCall where
  image : ImageFile
  effect : LightingEffect
  intensity : SunlightIntensity
  direction : SunlightDirection
deriving DecidableEq, Repr

/-- Outcome of the awaited `applyLightingEffect` promise: a payload, or a
rejection carrying `err.message` (`none` models an absent/undefined message). -/
inductive RemoteResult where
  | ok (payload : String)
  | err (msg : Option String)
deriving DecidableEq, Repr

/-- `err.message || "An unexpected error occurred."`: JavaScript `||` falls
through on `undefined` and on the empty string. -/
def errMessageOrDefault : Option String → String
  | some m => if m.isEmpty then "An unexpected error occurred." else m
  | none => "An unexpected error occurred."

/-- The state updates of `runEffect` before the `await` suspension point:
`setIsLoading(true); setActiveProcess(processType); setError(null);
setGeneratedImage(null)`. -/
def runEffectStart (s : AppState) (processType : Option ProcTag) : AppState :=
  { s with isLoading := true, activeProcess := processType,
           error := none, generatedImage := none }

/-- The state updates of `runEffect` after the `await`: the `try` success
branch or the `catch` branch, followed by the `finally` block. -/
def runEffectFinish (s1 : AppState) (effect : LightingEffect)
    (intensity : SunlightIntensity) (direction : SunlightDirection)
    (processType : Option ProcTag) (remote : RemoteResult) : AppState :=
  let s2 :=
    match remote with
    | .ok result =>
      let sOk := { s1 with generatedImage := some result }
      if processType ≠ some ProcTag.variation then
        { sOk with lastAppliedConfig := some ⟨effect, intensity, direction⟩ }
      else
        sOk
    | .err msg => { s1 with error := some (errMessageOrDefault msg) }
  { s2 with isLoading := false, activeProcess := none }

/-- `runEffect` from the `App` component.  Returns the new state and the
list of calls made to the remote effect invoker. -/
def runEffect (s : AppState) (effect : LightingEffect)
    (intensity : SunlightIntensity) (direction : SunlightDirection)
    (processType : Option ProcTag) (remote : RemoteResult) :
    AppState × List RemoteCall :=
  match s.originalImage with
  | none => ({ s with error := some "Please upload an image first." }, [])
  | some img =>
      (runEffectFinish (runEffectStart s processType)
        effect intensity direction processType remote,
       [⟨img, effect, intensity, direction⟩])

/-- `handleEffectClick`: closes both menus, then runs the effect with the
current intensity and direction, tagging the process with the effect itself. -/
def handleEffectClick (s : AppState) (effect : LightingEffect)
    (remote : RemoteResult) : AppState × List RemoteCall :=
  let s1 := { s with isAddMenuOpen := false, isRemoveMenuOpen := false }
  runEffect s1 effect s1.sunlightIntensity s1.sunlightDirection
    (some (ProcTag.effect effect)) remote

/-- `handleVariationClick`: replays the stored configuration tagged as
`'variation'`, or does nothing when no configuration is stored. -/
def handleVariationClick (s : AppState) (remote : RemoteResult) :
    AppState × List RemoteCall :=
  match s.lastAppliedConfig with
  | some cfg =>
      runEffect s cfg.effect cfg.intensity cfg.direction
        (some ProcTag.variation) remote
  | none => (s, [])

/-- A file as seen by `handleImageUpload`: `file.type` and `file.name`. -/
structure UploadFile where
  type : String
  name : String
deriving DecidableEq, Repr

/-- Outcome of `FileReader.readAsDataURL`: `onload` with the data URL, or
`onerror`. -/
inductive ReadResult where
  | ok (dataUrl : String)
  | err
deriving DecidableEq, Repr

/-- JavaScript `str.startsWith(prefix)`, as a prefix test on the
characters of the string. -/
def jsStartsWith (s pre : String) : Bool :=
  pre.toList.isPrefixOf s.toList

/-- `(e.target?.result as string).split(',')[1]`; an absent element
(JavaScript `undefined`) is modelled as the empty string. -/
def extractBase64 (dataUrl : String) : String :=
  (dataUrl.splitOn ",").getD 1 ""

/-- `handleImageUpload` from the `App` component: `file` is
`event.target.files?.[0]`, `read` the file reader's outcome. -/
def handleImageUpload (s : AppState) (file : Option UploadFile)
    (read : ReadResult) : AppState :=
  match file with
  | none => s
  | some f =>
    if ¬ jsStartsWith f.type "image/" then
      { s with error := some "Please upload a valid image file (e.g., JPEG, PNG, WEBP)." }
    else
      match read with
      | .ok dataUrl =>
          { s with
            originalImage := some ⟨extractBase64 dataUrl, f.type, f.name⟩,
            generatedImage := none,
            lastAppliedConfig := none,
            error := none }
      | .err => { s with error := some "Failed to read the selected file." }

/-- JavaScript `str.split('.')` over the characters of the name: always
returns at least one (possibly empty) segment. -/
def splitDots : List Char → List (List Char)
  | [] => [[]]
  | c :: rest =>
    match splitDots rest with
    | [] => [[]]
    | s :: ss => if c = '.' then [] :: s :: ss else (c :: s) :: ss

/-- JavaScript `segments.join('.')`. -/
def joinDots : List (List Char) → List Char
  | [] => []
  | [s] => s
  | s :: ss => s ++ '.' :: joinDots ss

/-- `lastAppliedConfig?.effect || 'enhanced'` (the effect literals are all
nonempty, so `||` falls through only on `null`). -/
def effectOrEnhanced : Option EffectConfig → String
  | some cfg => cfg.effect.str
  | none => "enhanced"

/-- `handleDownload`: returns the `link.download` filename, or `none` when
the guard `!generatedImage || !originalImage` returns early (a stored empty
string is falsy in JavaScript, like `null`). -/
def handleDownload (s : AppState) : Option String :=
  match s.generatedImage, s.originalImage with
  | some g, some orig =>
    if g.isEmpty then none
    else
      let stem := joinDots ((splitDots orig.name.toList).dropLast)
      let name := if stem.isEmpty then "image" else String.mk stem
      some (name ++ "-" ++ effectOrEnhanced s.lastAppliedConfig ++ ".png")
  | _, _ => none

/-- States the running application can be in: the initial render followed
by any sequence of handler invocations (uploads, effect and variation
clicks, the intensity, direction and menu setters; `handleDownload` does
not change state). -/
inductive Reachable : AppState → Prop where
  | init : Reachable initialState
  | upload (s : AppState) (file : Option UploadFile) (read : ReadResult) :
      Reachable s → Reachable (handleImageUpload s file read)
  | effectClick (s : AppState) (e : LightingEffect) (r : RemoteResult) :
      Reachable s → Reachable (handleEffectClick s e r).1
  | variationClick (s : AppState) (r : RemoteResult) :
      Reachable s → Reachable (handleVariationClick s r).1
  | setIntensity (s : AppState) (i : SunlightIntensity) :
      Reachable s → Reachable { s with sunlightIntensity := i }
  | setDirection (s : AppState) (d : SunlightDirection) :
      Reachable s → Reachable { s with sunlightDirection := d }
  | setAddMenu (s : AppState) (b : Bool) :
      Reachable s → Reachable { s with isAddMenuOpen := b }
  | setRemoveMenu (s : AppState) (b : Bool) :
      Reachable s → Reachable { s with isRemoveMenuOpen := b }

/-! ## Demonstration values used by witness theorems -/

/-- A concrete uploaded image. -/
def demoImage : ImageFile := ⟨"QUJD", "image/png", "photo.png"⟩

/-- A concrete state with an image uploaded. -/
def demoUploaded : AppState := { initialState with originalImage := some demoImage }

/-! ## Theorems for the claims -/

/-- C1: when no image has been uploaded, `runEffect` only sets the
precondition error message and issues no remote call, for every effect,
intensity, direction, process tag and remote outcome. -/
theorem requestEffect_no_image (s : AppState) (e : LightingEffect)
    (i : SunlightIntensity) (d : SunlightDirection) (p : Option ProcTag)
    (r : RemoteResult) (h : s.originalImage = none) :
    runEffect s e i d p r =
      ({ s with error := some "Please upload an image first." }, []) := by
  simp [runEffect, h]

/-- Witness for C1 at the initial state. -/
theorem requestEffect_no_image_witness :
    runEffect initialState .sunlight .two .top none (.ok "RES") =
      ({ initialState with error := some "Please upload an image first." }, []) :=
  requestEffect_no_image initialState .sunlight .two .top none (.ok "RES") rfl

/-- C2: with an image uploaded, a non-variation `runEffect` whose remote
call succeeds stores the returned payload as the generated image and sets
`lastAppliedConfig` to exactly the triple used for the call. -/
theorem requestEffect_success_updates_config (s : AppState) (img : ImageFile)
    (e : LightingEffect) (i : SunlightIntensity) (d : SunlightDirection)
    (p : Option ProcTag) (payload : String)
    (himg : s.originalImage = some img) (hp : p ≠ some ProcTag.variation) :
    (runEffect s e i d p (.ok payload)).1.generatedImage = some payload ∧
    (runEffect s e i d p (.ok payload)).1.lastAppliedConfig = some ⟨e, i, d⟩ := by
  simp [runEffect, himg, runEffectFinish, runEffectStart, hp]

/-- Witness for C2 at a concrete uploaded state. -/
theorem requestEffect_success_updates_config_witness :
    (runEffect demoUploaded .sunlight .two .top
        (some (ProcTag.effect .sunlight)) (.ok "RES")).1.generatedImage = some "RES" ∧
    (runEffect demoUploaded .sunlight .two .top
        (some (ProcTag.effect .sunlight)) (.ok "RES")).1.lastAppliedConfig =
      some ⟨.sunlight, .two, .top⟩ :=
  requestEffect_success_updates_config demoUploaded demoImage .sunlight .two .top
    (some (ProcTag.effect .sunlight)) "RES" rfl (by decide)

/-- C3: with an image uploaded, `runEffect` always finishes with the
loading flag cleared and no active process, whether the remote call
succeeds or fails. -/
theorem requestEffect_clears_loading (s : AppState) (img : ImageFile)
    (e : LightingEffect) (i : SunlightIntensity) (d : SunlightDirection)
    (p : Option ProcTag) (r : RemoteResult)
    (himg : s.originalImage = some img) :
    (runEffect s e i d p r).1.isLoading = false ∧
    (runEffect s e i d p r).1.activeProcess = none := by
  cases r <;> simp [runEffect, himg, runEffectFinish, runEffectStart]

/-- Witness for C3 at a concrete uploaded state with a failing remote call. -/
theorem requestEffect_clears_loading_witness :
    (runEffect demoUploaded .shadows .two .top
        (some (ProcTag.effect .shadows)) (.err (some "boom"))).1.isLoading = false ∧
    (runEffect demoUploaded .shadows .two .top
        (some (ProcTag.effect .shadows)) (.err (some "boom"))).1.activeProcess = none :=
  requestEffect_clears_loading demoUploaded demoImage .shadows .two .top
    (some (ProcTag.effect .shadows)) (.err (some "boom")) rfl

/-- C5: when no configuration is stored, `handleVariationClick` changes
nothing and issues no remote call. -/
theorem requestVariation_no_config (s : AppState) (r : RemoteResult)
    (h : s.lastAppliedConfig = none) :
    handleVariationClick s r = (s, []) := by
  simp [handleVariationClick, h]

/-- Witness for C5 at the initial state. -/
theorem requestVariation_no_config_witness :
    handleVariationClick initialState (.ok "RES") = (initialState, []) :=
  requestVariation_no_config initialState (.ok "RES") rfl

/-- C6: uploading a file whose MIME type starts with `image/` with a
successful read replaces the uploaded image with the new file's data and
clears the generated result, the stored configuration and the error. -/
theorem upload_valid_image (s : AppState) (f : UploadFile) (url : String)
    (h : jsStartsWith f.type "image/" = true) :
    handleImageUpload s (some f) (.ok url) =
      { s with
        originalImage := some ⟨extractBase64 url, f.type, f.name⟩,
        generatedImage := none,
        lastAppliedConfig := none,
        error := none } := by
  simp [handleImageUpload, h]

/-- Witness for C6: a PNG upload over a state that had a prior result. -/
theorem upload_valid_image_witness :
    handleImageUpload
        { demoUploaded with
          generatedImage := some "OLD",
          lastAppliedConfig := some ⟨.sunlight, .two, .top⟩,
          error := some "old error" }
        (some ⟨"image/png", "new.png"⟩) (.ok "data:image/png;base64,REVG") =
      { demoUploaded with
        originalImage := some ⟨extractBase64 "data:image/png;base64,REVG", "image/png", "new.png"⟩,
        generatedImage := none,
        lastAppliedConfig := none,
        error := none } :=
  upload_valid_image
    { demoUploaded with
      generatedImage := some "OLD",
      lastAppliedConfig := some ⟨.sunlight, .two, .top⟩,
      error := some "old error" }
    ⟨"image/png", "new.png"⟩ "data:image/png;base64,REVG" (by decide)

/-- C7: uploading a file whose MIME type does not start with `image/`
leaves the uploaded image unchanged and sets the validation error. -/
theorem upload_non_image (s : AppState) (f : UploadFile) (read : ReadResult)
    (h : jsStartsWith f.type "image/" = false) :
    (handleImageUpload s (some f) read).originalImage = s.originalImage ∧
    (handleImageUpload s (some f) read).error =
      some "Please upload a valid image file (e.g., JPEG, PNG, WEBP)." := by
  simp [handleImageUpload, h]

/-- Witness for C7: a PDF upload over a state that already has an image. -/
theorem upload_non_image_witness :
    (handleImageUpload demoUploaded (some ⟨"application/pdf", "doc.pdf"⟩)
        (.ok "data:application/pdf;base64,QUFB")).originalImage =
      demoUploaded.originalImage ∧
    (handleImageUpload demoUploaded (some ⟨"application/pdf", "doc.pdf"⟩)
        (.ok "data:application/pdf;base64,QUFB")).error =
      some "Please upload a valid image file (e.g., JPEG, PNG, WEBP)." :=
  upload_non_image demoUploaded ⟨"application/pdf", "doc.pdf"⟩
    (.ok "data:application/pdf;base64,QUFB") (by decide)

/-- C9: with an image uploaded, the state in force when the remote invoker
is called (the pre-await phase `runEffectStart`) has the loading flag set,
the active process set to the requested tag, and the previous result and
error cleared; `runEffect` issues exactly one call from that state. -/
theorem requestEffect_start_state (s : AppState) (img : ImageFile)
    (e : LightingEffect) (i : SunlightIntensity) (d : SunlightDirection)
    (p : Option ProcTag) (r : RemoteResult)
    (himg : s.originalImage = some img) :
    (runEffectStart s p).isLoading = true ∧
    (runEffectStart s p).activeProcess = p ∧
    (runEffectStart s p).generatedImage = none ∧
    (runEffectStart s p).error = none ∧
    runEffect s e i d p r =
      (runEffectFinish (runEffectStart s p) e i d p r, [⟨img, e, i, d⟩]) := by
  simp [runEffect, himg, runEffectStart]

/-- Witness for C9 at a concrete uploaded state. -/
theorem requestEffect_start_state_witness :
    (runEffectStart demoUploaded (some (ProcTag.effect .sunlight))).isLoading = true ∧
    (runEffectStart demoUploaded (some (ProcTag.effect .sunlight))).activeProcess =
      some (ProcTag.effect .sunlight) ∧
    (runEffectStart demoUploaded (some (ProcTag.effect .sunlight))).generatedImage = none ∧
    (runEffectStart demoUploaded (some (ProcTag.effect .sunlight))).error = none ∧
    runEffect demoUploaded .sunlight .two .top (some (ProcTag.effect .sunlight)) (.ok "RES") =
      (runEffectFinish (runEffectStart demoUploaded (some (ProcTag.effect .sunlight)))
        .sunlight .two .top (some (ProcTag.effect .sunlight)) (.ok "RES"),
       [⟨demoImage, .sunlight, .two, .top⟩]) :=
  requestEffect_start_state demoUploaded demoImage .sunlight .two .top
    (some (ProcTag.effect .sunlight)) (.ok "RES") rfl

/-- C10: when no image is uploaded, a failing `runEffect` touches only the
error message: every other state component is left unchanged. -/
theorem requestEffect_precondition_frame (s : AppState) (e : LightingEffect)
    (i : SunlightIntensity) (d : SunlightDirection) (p : Option ProcTag)
    (r : RemoteResult) (h : s.originalImage = none) :
    (runEffect s e i d p r).1.isLoading = s.isLoading ∧
    (runEffect s e i d p r).1.activeProcess = s.activeProcess ∧
    (runEffect s e i d p r).1.generatedImage = s.generatedImage ∧
    (runEffect s e i d p r).1.lastAppliedConfig = s.lastAppliedConfig ∧
    (runEffect s e i d p r).1.originalImage = s.originalImage ∧
    (runEffect s e i d p r).1.sunlightIntensity = s.sunlightIntensity ∧
    (runEffect s e i d p r).1.sunlightDirection = s.sunlightDirection ∧
    (runEffect s e i d p r).1.isAddMenuOpen = s.isAddMenuOpen ∧
    (runEffect s e i d p r).1.isRemoveMenuOpen = s.isRemoveMenuOpen ∧
    (runEffect s e i d p r).1.error = some "Please upload an image first." := by
  simp [runEffect, h]

/-- Witness for C10 at a loading-free empty state. -/
theorem requestEffect_precondition_frame_witness :
    (runEffect initialState .removeShadows .three .left none (.err none)).1.isLoading =
      initialState.isLoading ∧
    (runEffect initialState .removeShadows .three .left none (.err none)).1.activeProcess =
      initialState.activeProcess ∧
    (runEffect initialState .removeShadows .three .left none (.err none)).1.generatedImage =
      initialState.generatedImage ∧
    (runEffect initialState .removeShadows .three .left none (.err none)).1.lastAppliedConfig =
      initialState.lastAppliedConfig ∧
    (runEffect initialState .removeShadows .three .left none (.err none)).1.originalImage =
      initialState.originalImage ∧
    (runEffect initialState .removeShadows .three .left none (.err none)).1.sunlightIntensity =
      initialState.sunlightIntensity ∧
    (runEffect initialState .removeShadows .three .left none (.err none)).1.sunlightDirection =
      initialState.sunlightDirection ∧
    (runEffect initialState .removeShadows .three .left none (.err none)).1.isAddMenuOpen =
      initialState.isAddMenuOpen ∧
    (runEffect initialState .removeShadows .three .left none (.err none)).1.isRemoveMenuOpen =
      initialState.isRemoveMenuOpen ∧
    (runEffect initialState .removeShadows .three .left none (.err none)).1.error =
      some "Please upload an image first." :=
  requestEffect_precondition_frame initialState .removeShadows .three .left none
    (.err none) rfl

/-! ## The image invariant and claim C4 -/

/-- A stored configuration implies a stored image: `lastAppliedConfig` is
only ever set by a successful `runEffect`, which requires an image. -/
def ImageInvariant (s : AppState) : Prop :=
  s.lastAppliedConfig.isSome = true → s.originalImage.isSome = true

/-- `runEffect` never changes the uploaded image. -/
theorem runEffect_originalImage (s : AppState) (e : LightingEffect)
    (i : SunlightIntensity) (d : SunlightDirection) (p : Option ProcTag)
    (r : RemoteResult) :
    (runEffect s e i d p r).1.originalImage = s.originalImage := by
  cases h : s.originalImage with
  | none => simp [runEffect, h]
  | some img =>
      cases r with
      | ok payload =>
          simp only [runEffect, h, runEffectFinish, runEffectStart]
          split <;> rfl
      | err msg => simp [runEffect, h, runEffectFinish, runEffectStart]

/-- When the precondition fails, `runEffect` leaves the configuration. -/
theorem runEffect_config_of_no_image (s : AppState) (e : LightingEffect)
    (i : SunlightIntensity) (d : SunlightDirection) (p : Option ProcTag)
    (r : RemoteResult) (h : s.originalImage = none) :
    (runEffect s e i d p r).1.lastAppliedConfig = s.lastAppliedConfig := by
  simp [runEffect, h]

/-- `runEffect` preserves the image invariant. -/
theorem runEffect_preserves_invariant (s : AppState) (e : LightingEffect)
    (i : SunlightIntensity) (d : SunlightDirection) (p : Option ProcTag)
    (r : RemoteResult) (h : ImageInvariant s) :
    ImageInvariant (runEffect s e i d p r).1 := by
  intro hc
  rw [runEffect_originalImage]
  cases himg : s.originalImage with
  | some img => simp
  | none =>
      rw [runEffect_config_of_no_image s e i d p r himg] at hc
      have := h hc
      rw [himg] at this
      simp at this

/-- `handleImageUpload` preserves the image invariant. -/
theorem upload_preserves_invariant (s : AppState) (file : Option UploadFile)
    (read : ReadResult) (h : ImageInvariant s) :
    ImageInvariant (handleImageUpload s file read) := by
  cases file with
  | none => exact h
  | some f =>
      by_cases ht : jsStartsWith f.type "image/" = true
      · cases read with
        | ok url => intro _; simp [handleImageUpload, ht]
        | err => intro hc; simp only [handleImageUpload, ht] at hc ⊢; simp at hc ⊢; exact h hc
      · intro hc
        simp only [handleImageUpload, Bool.not_eq_true] at ht
        simp only [handleImageUpload, ht] at hc ⊢
        simp at hc ⊢
        exact h hc

/-- Every reachable application state satisfies the image invariant. -/
theorem reachable_invariant (s : AppState) (hs : Reachable s) :
    ImageInvariant s := by
  induction hs with
  | init => intro hc; simp [initialState] at hc
  | upload s file read _ ih => exact upload_preserves_invariant s file read ih
  | effectClick s e r _ ih =>
      exact runEffect_preserves_invariant _ _ _ _ _ _ (fun hc => ih hc)
  | variationClick s r _ ih =>
      unfold handleVariationClick
      cases hcfg : s.lastAppliedConfig with
      | none => exact ih
      | some cfg => exact runEffect_preserves_invariant _ _ _ _ _ _ ih
  | setIntensity s i _ ih => exact fun hc => ih hc
  | setDirection s d _ ih => exact fun hc => ih hc
  | setAddMenu s b _ ih => exact fun hc => ih hc
  | setRemoveMenu s b _ ih => exact fun hc => ih hc

/-- C4: in every reachable state holding a configuration,
`handleVariationClick` issues exactly one remote call with that stored
effect, intensity and direction, and a successful outcome leaves
`lastAppliedConfig` equal to the same triple. -/
theorem requestVariation_replays_config (s : AppState) (cfg : EffectConfig)
    (hs : Reachable s) (hcfg : s.lastAppliedConfig = some cfg) :
    ∃ img, s.originalImage = some img ∧
      (∀ r, (handleVariationClick s r).2 =
        [⟨img, cfg.effect, cfg.intensity, cfg.direction⟩]) ∧
      (∀ payload,
        (handleVariationClick s (.ok payload)).1.lastAppliedConfig = some cfg) := by
  have hsome : s.originalImage.isSome = true :=
    reachable_invariant s hs (by simp [hcfg])
  obtain ⟨img, himg⟩ := Option.isSome_iff_exists.mp hsome
  refine ⟨img, himg, ?_, ?_⟩
  · intro r
    simp [handleVariationClick, hcfg, runEffect, himg]
  · intro payload
    simp [handleVariationClick, hcfg, runEffect, himg, runEffectFinish,
      runEffectStart]

/-- A concrete reachable state: upload a PNG, then apply sunlight. -/
def demoReached : AppState :=
  (handleEffectClick
    (handleImageUpload initialState (some ⟨"image/png", "photo.png"⟩)
      (.ok "data:image/png;base64,QUJD"))
    .sunlight (.ok "GEN")).1

/-- Witness for C4 at the concrete reachable state `demoReached`. -/
theorem requestVariation_replays_config_witness :
    ∃ img, demoReached.originalImage = some img ∧
      (∀ r, (handleVariationClick demoReached r).2 =
        [⟨img, .sunlight, .two, .top⟩]) ∧
      (∀ payload,
        (handleVariationClick demoReached (.ok payload)).1.lastAppliedConfig =
          some ⟨.sunlight, .two, .top⟩) :=
  requestVariation_replays_config demoReached ⟨.sunlight, .two, .top⟩
    (Reachable.effectClick _ _ _ (Reachable.upload _ _ _ Reachable.init))
    (by decide)

/-! ## Claim C8: the download filename -/

/-- Unfolding equation for `splitDots` on a cons cell. -/
theorem splitDots_cons (c : Char) (rest : List Char) :
    splitDots (c :: rest) =
      match splitDots rest with
      | [] => [[]]
      | s :: ss => if c = '.' then [] :: s :: ss else (c :: s) :: ss := rfl

/-- `splitDots` always yields at least one segment. -/
theorem splitDots_ne_nil (l : List Char) : splitDots l ≠ [] := by
  cases l with
  | nil => simp [splitDots]
  | cons c rest =>
      rw [splitDots_cons]
      cases hx : splitDots rest with
      | nil => simp
      | cons s ss =>
          show ¬ (if c = '.' then [] :: s :: ss else (c :: s) :: ss) = []
          split <;> simp

/-- Splitting around a dot splits each side separately. -/
theorem splitDots_append (xs ys : List Char) :
    splitDots (xs ++ '.' :: ys) = splitDots xs ++ splitDots ys := by
  induction xs with
  | nil =>
      rw [List.nil_append, splitDots_cons]
      cases hy : splitDots ys with
      | nil => exact absurd hy (splitDots_ne_nil ys)
      | cons s ss => simp [splitDots]
  | cons c xs ih =>
      cases hx : splitDots xs with
      | nil => exact absurd hx (splitDots_ne_nil xs)
      | cons s ss =>
          rw [List.cons_append, splitDots_cons, ih, hx, splitDots_cons, hx,
            List.cons_append]
          show (if c = '.' then [] :: s :: ss ++ splitDots ys
                else (c :: s) :: ss ++ splitDots ys) =
            (if c = '.' then [] :: s :: ss else (c :: s) :: ss) ++ splitDots ys
          split <;> simp

/-- A dot-free list is a single segment. -/
theorem splitDots_of_no_dot (l : List Char) (h : '.' ∉ l) : splitDots l = [l] := by
  induction l with
  | nil => simp [splitDots]
  | cons c rest ih =>
      simp only [List.mem_cons, not_or] at h
      have hc : ¬ c = '.' := fun hcc => h.1 hcc.symm
      rw [splitDots_cons, ih h.2]
      show (if c = '.' then [] :: rest :: [] else (c :: rest) :: []) = [c :: rest]
      rw [if_neg hc]

/-- Joining a list whose head grew by one character. -/
theorem joinDots_cons_cons (c : Char) (s : List Char) (ss : List (List Char)) :
    joinDots ((c :: s) :: ss) = c :: joinDots (s :: ss) := by
  cases ss <;> simp [joinDots]

/-- `joinDots` is a left inverse of `splitDots`. -/
theorem joinDots_splitDots (l : List Char) : joinDots (splitDots l) = l := by
  induction l with
  | nil => simp [splitDots, joinDots]
  | cons c rest ih =>
      cases hx : splitDots rest with
      | nil => exact absurd hx (splitDots_ne_nil rest)
      | cons s ss =>
          rw [hx] at ih
          rw [splitDots_cons, hx]
          show joinDots (if c = '.' then [] :: s :: ss else (c :: s) :: ss) =
            c :: rest
          by_cases hc : c = '.'
          · subst hc
            rw [if_pos rfl]
            show ([] : List Char) ++ '.' :: joinDots (s :: ss) = '.' :: rest
            rw [List.nil_append, ih]
          · rw [if_neg hc, joinDots_cons_cons, ih]

/-- The stem the claim describes: "the name without its final extension",
i.e. everything before the last dot, or the whole name when it contains
no dot. -/
def claimedStem (name : String) : String :=
  if name.toList.contains '.' then
    String.mk (joinDots ((splitDots name.toList).dropLast))
  else name

/-- The download filename as the claim words it. -/
def claimedDownloadName (name : String) (cfg : Option EffectConfig) : String :=
  claimedStem name ++ "-" ++ effectOrEnhanced cfg ++ ".png"

/-- A state whose original file name has no extension. -/
def dotlessState : AppState :=
  { initialState with
    originalImage := some ⟨"QUJD", "image/png", "photo"⟩,
    generatedImage := some "RERE" }

/-- Counterexample to C8 as stated: for the extensionless original name
`"photo"` the code downloads `image-enhanced.png`, not the claimed
`photo-enhanced.png` built from the name without its final extension. -/
theorem download_stem_counterexample :
    handleDownload dotlessState = some "image-enhanced.png" ∧
    claimedDownloadName "photo" dotlessState.lastAppliedConfig =
      "photo-enhanced.png" ∧
    some "image-enhanced.png" ≠ some "photo-enhanced.png" := by
  refine ⟨by decide, by decide, by decide⟩

/-- C8 amended: with a nonempty generated image and an original whose name
splits as `stem.ext` with a dot-free `ext` and nonempty `stem`, the
download is named `stem-<effect-or-enhanced>.png`; when the original name
has no dot at all the literal stem `image` is used instead. -/
theorem download_filename_amended (s : AppState) (g : String)
    (orig : ImageFile) (hg : s.generatedImage = some g)
    (hgne : g.isEmpty = false) (ho : s.originalImage = some orig) :
    (∀ stemL extL, orig.name.toList = stemL ++ '.' :: extL → '.' ∉ extL →
      stemL ≠ [] →
      handleDownload s =
        some (String.mk stemL ++ "-" ++
          effectOrEnhanced s.lastAppliedConfig ++ ".png")) ∧
    ( '.' ∉ orig.name.toList →
      handleDownload s =
        some ("image" ++ "-" ++ effectOrEnhanced s.lastAppliedConfig ++ ".png")) := by
  constructor
  · intro stemL extL hdec hext hstem
    have hsplit : splitDots orig.name.toList = splitDots stemL ++ [extL] := by
      rw [hdec, splitDots_append, splitDots_of_no_dot extL hext]
    have hdrop : (splitDots orig.name.toList).dropLast = splitDots stemL := by
      rw [hsplit]; simp
    have hjoin : joinDots ((splitDots orig.name.data).dropLast) = stemL := by
      rw [show orig.name.data = orig.name.toList from rfl, hdrop,
        joinDots_splitDots]
    simp [handleDownload, hg, ho, hgne, hjoin, hstem, String.mk]
  · intro hnodot
    have hsplit : splitDots orig.name.data = [orig.name.data] :=
      splitDots_of_no_dot _ hnodot
    simp [handleDownload, hg, ho, hgne, hsplit, joinDots]

/-- A state with an original named `photo.png` and a generated result. -/
def dottedState : AppState :=
  { initialState with
    originalImage := some ⟨"QUJD", "image/png", "photo.png"⟩,
    generatedImage := some "RERE" }

/-- Witness for the amended C8 at the original name `photo.png`. -/
theorem download_filename_amended_witness :
    handleDownload dottedState = some "photo-enhanced.png" := by
  have h :=
    (download_filename_amended dottedState "RERE"
        ⟨"QUJD", "image/png", "photo.png"⟩ rfl rfl rfl).1
      "photo".toList "png".toList (by decide) (by decide) (by decide)
  rw [h]
  rfl
